import Mathlib

/-!
Verification of the PE-analysis engine of `uforever/pe_info`.

The repository ships the Svelte presentation layer (`src/routes/+page.svelte`)
which invokes a backend command `analyze(filePath)`.  The backend itself is not
part of the visible sources, so the decoding engine below is modelled from the
specification (sections 4.1-4.7 of the design document); the UI state machine
at the end of the development is embedded directly from `+page.svelte`.
-/

set_option maxRecDepth 40000

namespace PEInfo

/-- Decidable equality of `Except` values, used to evaluate the decoders on
concrete inputs. -/
instance {ε α : Type} [DecidableEq ε] [DecidableEq α] : DecidableEq (Except ε α) := fun a b =>
  match a, b with
  | .error x, .error y =>
    if h : x = y then isTrue (by rw [h]) else isFalse (fun hc => h (Except.error.inj hc))
  | .ok x, .ok y =>
    if h : x = y then isTrue (by rw [h]) else isFalse (fun hc => h (Except.ok.inj hc))
  | .error _, .ok _ => isFalse (fun hc => Except.noConfusion hc)
  | .ok _, .error _ => isFalse (fun hc => Except.noConfusion hc)

/-- Error taxonomy of the engine (spec section 7). -/
inductive PEError where
  | FileAccessError
  | InvalidFormat
  | UnsupportedArchitecture
  | Truncated
  | OutOfBounds
  | UnmappedAddress
  | CorruptDirectory
deriving DecidableEq, Repr

/-- Modelled from the spec: the Byte Source (4.1).  A file is an immutable
byte buffer; every accessor is bounds-checked and fails with `OutOfBounds`
past the end.  Reads one byte. -/
def readU8 (buf : List Nat) (off : Nat) : Except PEError Nat :=
  match buf.get? off with
  | some b => .ok (b % 256)
  | none => .error .OutOfBounds

/-- Modelled from the spec: little-endian 16-bit read (4.1). -/
def readU16 (buf : List Nat) (off : Nat) : Except PEError Nat :=
  match readU8 buf off, readU8 buf (off + 1) with
  | .error e, _ => .error e
  | .ok _, .error e => .error e
  | .ok b0, .ok b1 => .ok (b0 + 256 * b1)

/-- Modelled from the spec: little-endian 32-bit read (4.1). -/
def readU32 (buf : List Nat) (off : Nat) : Except PEError Nat :=
  match readU16 buf off, readU16 buf (off + 2) with
  | .error e, _ => .error e
  | .ok _, .error e => .error e
  | .ok lo, .ok hi => .ok (lo + 65536 * hi)

/-- Modelled from the spec: little-endian 64-bit read (4.1). -/
def readU64 (buf : List Nat) (off : Nat) : Except PEError Nat :=
  match readU32 buf off, readU32 buf (off + 4) with
  | .error e, _ => .error e
  | .ok _, .error e => .error e
  | .ok lo, .ok hi => .ok (lo + 4294967296 * hi)

/-- Modelled from the spec: fixed-length byte-string read (4.1). -/
def readBytesN (buf : List Nat) : Nat → Nat → Except PEError (List Nat)
  | _, 0 => .ok []
  | off, n + 1 =>
    match readU8 buf off with
    | .error e => .error e
    | .ok b =>
      match readBytesN buf (off + 1) n with
      | .error e => .error e
      | .ok rest => .ok (b :: rest)

/-- Fuel-bounded scan for a null terminator; the fuel chosen by `readCString`
makes the exhaustion case unreachable because `readU8` fails first. -/
def readCStringAux (buf : List Nat) : Nat → Nat → Except PEError (List Nat)
  | _, 0 => .error .OutOfBounds
  | off, fuel + 1 =>
    match readU8 buf off with
    | .error e => .error e
    | .ok b =>
      if b = 0 then .ok []
      else
        match readCStringAux buf (off + 1) fuel with
        | .error e => .error e
        | .ok rest => .ok (b :: rest)

/-- Modelled from the spec: null-terminated byte-string read (4.1). -/
def readCString (buf : List Nat) (off : Nat) : Except PEError (List Nat) :=
  readCStringAux buf off (buf.length + 1 - off)

/-- Output of the Header Decoder (spec 4.2): architecture flag, declared
section count, file offset of the section table, and the export/import
data-directory entries. -/
structure Header where
  is_x64 : Bool
  machine : Nat
  numSections : Nat
  sectionTableOff : Nat
  exportRVA : Nat
  exportSize : Nat
  importRVA : Nat
  importSize : Nat
deriving DecidableEq, Repr

/-- Modelled from the spec: reads one RVA/size pair of the data-directory
array at `base` and the following one (index 0 = exports, 1 = imports). -/
def readDataDirs (buf : List Nat) (base : Nat) : Except PEError (Nat × Nat × Nat × Nat) :=
  match readU32 buf base, readU32 buf (base + 4), readU32 buf (base + 8), readU32 buf (base + 12) with
  | .error e, _, _, _ => .error e
  | .ok _, .error e, _, _ => .error e
  | .ok _, .ok _, .error e, _ => .error e
  | .ok _, .ok _, .ok _, .error e => .error e
  | .ok a, .ok b, .ok c, .ok d => .ok (a, b, c, d)

/-- Modelled from the spec: the Header Decoder (4.2).  Validates the `MZ`
magic, follows the 32-bit NT-header offset at `0x3C`, validates `PE\0\0`,
reads the machine / section-count / optional-header-size fields, then the
optional header's 16-bit magic: `0x10B` selects 32-bit mode, `0x20B` selects
64-bit mode, anything else fails with `UnsupportedArchitecture`.  The data
directories sit 96 (PE32) or 112 (PE32+) bytes into the optional header. -/
def decodeHeaders (buf : List Nat) : Except PEError Header :=
  match readU8 buf 0, readU8 buf 1 with
  | .error e, _ => .error e
  | .ok _, .error e => .error e
  | .ok m0, .ok m1 =>
    if m0 = 0x4D ∧ m1 = 0x5A then
      match readU32 buf 0x3C with
      | .error e => .error e
      | .ok peOff =>
        match readU8 buf peOff, readU8 buf (peOff + 1), readU8 buf (peOff + 2), readU8 buf (peOff + 3) with
        | .error e, _, _, _ => .error e
        | .ok _, .error e, _, _ => .error e
        | .ok _, .ok _, .error e, _ => .error e
        | .ok _, .ok _, .ok _, .error e => .error e
        | .ok s0, .ok s1, .ok s2, .ok s3 =>
          if s0 = 0x50 ∧ s1 = 0x45 ∧ s2 = 0 ∧ s3 = 0 then
            match readU16 buf (peOff + 4), readU16 buf (peOff + 6), readU16 buf (peOff + 20) with
            | .error e, _, _ => .error e
            | .ok _, .error e, _ => .error e
            | .ok _, .ok _, .error e => .error e
            | .ok machine, .ok nsec, .ok optSize =>
              match readU16 buf (peOff + 24) with
              | .error e => .error e
              | .ok magic =>
                if magic = 0x10B then
                  match readDataDirs buf (peOff + 24 + 96) with
                  | .error e => .error e
                  | .ok (eR, eS, iR, iS) =>
                    .ok ⟨false, machine, nsec, peOff + 24 + optSize, eR, eS, iR, iS⟩
                else if magic = 0x20B then
                  match readDataDirs buf (peOff + 24 + 112) with
                  | .error e => .error e
                  | .ok (eR, eS, iR, iS) =>
                    .ok ⟨true, machine, nsec, peOff + 24 + optSize, eR, eS, iR, iS⟩
                else .error .UnsupportedArchitecture
          else .error .InvalidFormat
    else .error .InvalidFormat

/-- A decoded section-table entry (spec section 3). -/
structure Section where
  name : List Nat
  ptr_raw_data : Nat
  rva : Nat
  rv_end : Nat
deriving DecidableEq, Repr

/-- Trailing null padding is trimmed from section names (spec 4.3). -/
def trimTrailingZeros (l : List Nat) : List Nat :=
  (l.reverse.dropWhile (fun b => b = 0)).reverse

/-- Modelled from the spec: decode of one 40-byte section header (4.3):
8-byte name, virtual size (+8), virtual address (+12), raw size (+16),
raw pointer (+20); `rv_end = rva + max virtualSize rawSize`. -/
def decodeSectionEntry (buf : List Nat) (off : Nat) : Except PEError Section :=
  match readBytesN buf off 8, readU32 buf (off + 8), readU32 buf (off + 12),
        readU32 buf (off + 16), readU32 buf (off + 20) with
  | .error e, _, _, _, _ => .error e
  | .ok _, .error e, _, _, _ => .error e
  | .ok _, .ok _, .error e, _, _ => .error e
  | .ok _, .ok _, .ok _, .error e, _ => .error e
  | .ok _, .ok _, .ok _, .ok _, .error e => .error e
  | .ok nm, .ok vsize, .ok va, .ok rawsize, .ok rawptr =>
    .ok ⟨trimTrailingZeros nm, rawptr, va, va + max vsize rawsize⟩

/-- Modelled from the spec: iterates the declared number of 40-byte section
entries (4.3). -/
def decodeSectionsFrom (buf : List Nat) : Nat → Nat → Except PEError (List Section)
  | _, 0 => .ok []
  | off, n + 1 =>
    match decodeSectionEntry buf off with
    | .error e => .error e
    | .ok s =>
      match decodeSectionsFrom buf (off + 40) n with
      | .error e => .error e
      | .ok rest => .ok (s :: rest)

/-- Modelled from the spec: the Section Table Decoder (4.3); fails with
`Truncated` when the declared array extends past the buffer. -/
def decodeSections (buf : List Nat) (hdr : Header) : Except PEError (List Section) :=
  if hdr.sectionTableOff + 40 * hdr.numSections ≤ buf.length then
    decodeSectionsFrom buf hdr.sectionTableOff hdr.numSections
  else .error .Truncated

/-- Modelled from the spec: the RVA Translator (4.4).  First section in file
order whose `[rva, rv_end)` range contains the address wins; no owning
section fails with `UnmappedAddress`. -/
def translate : List Section → Nat → Except PEError Nat
  | [], _ => .error .UnmappedAddress
  | s :: rest, rva =>
    if s.rva ≤ rva ∧ rva < s.rv_end then .ok (s.ptr_raw_data + (rva - s.rva))
    else translate rest rva

/-- Modelled from the spec: inside the export/import walks an unmappable RVA
fails the whole decode with `CorruptDirectory` (4.5, 4.6). -/
def translateDir (secs : List Section) (rva : Nat) : Except PEError Nat :=
  match translate secs rva with
  | .ok off => .ok off
  | .error _ => .error .CorruptDirectory

/-- One export-table row (spec section 3). -/
structure ExportEntry where
  ordinal : Nat
  address : Nat
  name : List Nat
deriving DecidableEq, Repr

/-- Modelled from the spec: reads `n` consecutive 32-bit entries (the export
address table, 4.5). -/
def readU32Array (buf : List Nat) : Nat → Nat → Except PEError (List Nat)
  | _, 0 => .ok []
  | off, n + 1 =>
    match readU32 buf off with
    | .error e => .error e
    | .ok v =>
      match readU32Array buf (off + 4) n with
      | .error e => .error e
      | .ok rest => .ok (v :: rest)

/-- Modelled from the spec: parallel walk of the name-pointer and ordinal
tables (4.5); each name RVA is translated and read as a null-terminated
string, paired with the address-table index from the ordinal table. -/
def readNamePairs (buf : List Nat) (secs : List Section) :
    Nat → Nat → Nat → Except PEError (List (Nat × List Nat))
  | _, _, 0 => .ok []
  | npOff, oOff, n + 1 =>
    match readU32 buf npOff, readU16 buf oOff with
    | .error e, _ => .error e
    | .ok _, .error e => .error e
    | .ok nRVA, .ok idx =>
      match translateDir secs nRVA with
      | .error e => .error e
      | .ok nOff =>
        match readCString buf nOff with
        | .error e => .error e
        | .ok nm =>
          match readNamePairs buf secs (npOff + 4) (oOff + 2) n with
          | .error e => .error e
          | .ok rest => .ok ((idx, nm) :: rest)

/-- Modelled from the spec: assembly of export entries (4.5): index `i` of
the address table yields `ordinal = base + i`; indices appearing in the
name-pair list get that name, the rest stay ordinal-only (empty name). -/
def assembleExports (base : Nat) (pairs : List (Nat × List Nat)) :
    Nat → List Nat → List ExportEntry
  | _, [] => []
  | i, a :: rest =>
    ⟨base + i, a,
      match pairs.find? (fun p => p.1 = i) with
      | some p => p.2
      | none => []⟩ :: assembleExports base pairs (i + 1) rest

/-- Modelled from the spec: the Export Table Decoder (4.5).  An export
directory RVA of 0 yields the empty table; otherwise the directory is
translated and its address/name/ordinal sub-tables decoded. -/
def readExports (buf : List Nat) (secs : List Section) (exportRVA : Nat) :
    Except PEError (List ExportEntry) :=
  if exportRVA = 0 then .ok []
  else
    match translateDir secs exportRVA with
    | .error e => .error e
    | .ok dirOff =>
      match readU32 buf (dirOff + 16), readU32 buf (dirOff + 20), readU32 buf (dirOff + 24),
            readU32 buf (dirOff + 28), readU32 buf (dirOff + 32), readU32 buf (dirOff + 36) with
      | .error e, _, _, _, _, _ => .error e
      | .ok _, .error e, _, _, _, _ => .error e
      | .ok _, .ok _, .error e, _, _, _ => .error e
      | .ok _, .ok _, .ok _, .error e, _, _ => .error e
      | .ok _, .ok _, .ok _, .ok _, .error e, _ => .error e
      | .ok _, .ok _, .ok _, .ok _, .ok _, .error e => .error e
      | .ok base, .ok nf, .ok nn, .ok aRVA, .ok npRVA, .ok oRVA =>
        match translateDir secs aRVA with
        | .error e => .error e
        | .ok aOff =>
          match readU32Array buf aOff nf with
          | .error e => .error e
          | .ok addrs =>
            match translateDir secs npRVA, translateDir secs oRVA with
            | .error e, _ => .error e
            | .ok _, .error e => .error e
            | .ok npOff, .ok oOff =>
              match readNamePairs buf secs npOff oOff nn with
              | .error e => .error e
              | .ok pairs => .ok (assembleExports base pairs 0 addrs)

/-- One imported function (spec section 3). -/
structure ImportFunction where
  is_ordinal : Bool
  ordinal : Nat
  hint : Nat
  name : List Nat
deriving DecidableEq, Repr

/-- One imported library (spec section 3). -/
structure ImportLibrary where
  dll_name : List Nat
  functions : List ImportFunction
deriving DecidableEq, Repr

/-- Architecture-selected thunk width in bytes (spec 4.6, 9). -/
def thunkSize (x64 : Bool) : Nat := if x64 then 8 else 4

/-- The architecture-width high bit tested on each thunk (spec 4.6). -/
def thunkHighBit (x64 : Bool) : Nat := if x64 then 2 ^ 63 else 2 ^ 31

/-- Modelled from the spec: one thunk-table entry read at the selected
width (4.6). -/
def readThunk (buf : List Nat) (x64 : Bool) (off : Nat) : Except PEError Nat :=
  if x64 then readU64 buf off else readU32 buf off

/-- Modelled from the spec: a hint/name record is a 16-bit hint followed by a
null-terminated name (4.6). -/
def readHintName (buf : List Nat) (off : Nat) : Except PEError (Nat × List Nat) :=
  match readU16 buf off with
  | .error e => .error e
  | .ok h =>
    match readCString buf (off + 2) with
    | .error e => .error e
    | .ok nm => .ok (h, nm)

/-- Modelled from the spec: decoding of one nonzero thunk (4.6).  High bit
set: ordinal-only import, `ordinal` = the low-order 16 bits, name empty.
High bit clear: the value is an RVA to a hint/name record. -/
def decodeThunk (buf : List Nat) (secs : List Section) (x64 : Bool) (t : Nat) :
    Except PEError ImportFunction :=
  if thunkHighBit x64 ≤ t then .ok ⟨true, t % 2 ^ 16, 0, []⟩
  else
    match translateDir secs t with
    | .error e => .error e
    | .ok hnOff =>
      match readHintName buf hnOff with
      | .error e => .error e
      | .ok (h, nm) => .ok ⟨false, 0, h, nm⟩

/-- Modelled from the spec: the thunk walk (4.6), stopping at a zero entry;
the defensive iteration cap converts an unterminated table into a
`CorruptDirectory` failure (spec section 9). -/
def walkThunks (buf : List Nat) (secs : List Section) (x64 : Bool) :
    Nat → Nat → Except PEError (List ImportFunction)
  | _, 0 => .error .CorruptDirectory
  | off, fuel + 1 =>
    match readThunk buf x64 off with
    | .error e => .error e
    | .ok t =>
      if t = 0 then .ok []
      else
        match decodeThunk buf secs x64 t with
        | .error e => .error e
        | .ok f =>
          match walkThunks buf secs x64 (off + thunkSize x64) fuel with
          | .error e => .error e
          | .ok rest => .ok (f :: rest)

/-- Modelled from the spec: one 20-byte import descriptor (4.6):
original-first-thunk, timestamp, forwarder chain, name RVA, first thunk. -/
def readDescriptor (buf : List Nat) (off : Nat) :
    Except PEError (Nat × Nat × Nat × Nat × Nat) :=
  match readU32 buf off, readU32 buf (off + 4), readU32 buf (off + 8),
        readU32 buf (off + 12), readU32 buf (off + 16) with
  | .error e, _, _, _, _ => .error e
  | .ok _, .error e, _, _, _ => .error e
  | .ok _, .ok _, .error e, _, _ => .error e
  | .ok _, .ok _, .ok _, .error e, _ => .error e
  | .ok _, .ok _, .ok _, .ok _, .error e => .error e
  | .ok a, .ok b, .ok c, .ok d, .ok f => .ok (a, b, c, d, f)

/-- Modelled from the spec: processing of one import descriptor (4.6):
`ok none` on the all-zero terminator, otherwise the library name and its
thunk table are decoded. -/
def stepDescriptor (buf : List Nat) (secs : List Section) (x64 : Bool)
    (cap off : Nat) : Except PEError (Option ImportLibrary) :=
  match readDescriptor buf off with
  | .error e => .error e
  | .ok (oft, ts, fc, nameRVA, ft) =>
    if oft = 0 ∧ ts = 0 ∧ fc = 0 ∧ nameRVA = 0 ∧ ft = 0 then .ok none
    else
      match translateDir secs nameRVA with
      | .error e => .error e
      | .ok nOff =>
        match readCString buf nOff with
        | .error e => .error e
        | .ok dll =>
          match translateDir secs (if oft = 0 then ft else oft) with
          | .error e => .error e
          | .ok tOff =>
            match walkThunks buf secs x64 tOff cap with
            | .error e => .error e
            | .ok funcs => .ok (some ⟨dll, funcs⟩)

/-- Modelled from the spec: the descriptor walk (4.6), stopping at the
all-zero terminator; exhausting the defensive cap fails with
`CorruptDirectory`. -/
def walkDescriptors (buf : List Nat) (secs : List Section) (x64 : Bool)
    (cap : Nat) : Nat → Nat → Except PEError (List ImportLibrary)
  | _, 0 => .error .CorruptDirectory
  | off, fuel + 1 =>
    match stepDescriptor buf secs x64 cap off with
    | .error e => .error e
    | .ok none => .ok []
    | .ok (some lib) =>
      match walkDescriptors buf secs x64 cap (off + 20) fuel with
      | .error e => .error e
      | .ok rest => .ok (lib :: rest)

/-- Modelled from the spec: the Import Table Decoder (4.6).  An import
directory RVA of 0 yields the empty table. -/
def readImports (cap : Nat) (buf : List Nat) (secs : List Section) (x64 : Bool)
    (importRVA : Nat) : Except PEError (List ImportLibrary) :=
  if importRVA = 0 then .ok []
  else
    match translateDir secs importRVA with
    | .error e => .error e
    | .ok off => walkDescriptors buf secs x64 cap off cap

/-- The record consumed by the presentation layer; field names follow the
accesses in `+page.svelte` (`pe_info.path`, `.size`, `.is_x64`, `.sections`,
`.export_table`, `.import_table`). -/
structure AnalysisResult where
  path : String
  size : Nat
  is_x64 : Bool
  sections : List Section
  export_table : List ExportEntry
  import_table : List ImportLibrary
deriving DecidableEq, Repr

/-- Modelled from the spec: the Analyzer (4.7), the single entry point
`analyze`.  Sequences the decoders, short-circuiting on the first failure;
`size` comes from the byte source's total length.  `cap` is the defensive
iteration cap of section 9 (configurable); the file bytes stand in for the
byte-source acquisition, whose I/O layer is not part of the embedding. -/
def analyze (cap : Nat) (path : String) (buf : List Nat) :
    Except PEError AnalysisResult :=
  match decodeHeaders buf with
  | .error e => .error e
  | .ok hdr =>
    match decodeSections buf hdr with
    | .error e => .error e
    | .ok secs =>
      match readExports buf secs hdr.exportRVA with
      | .error e => .error e
      | .ok exps =>
        match readImports cap buf secs hdr.is_x64 hdr.importRVA with
        | .error e => .error e
        | .ok imps =>
          .ok ⟨path, buf.length, hdr.is_x64, secs, exps, imps⟩

/-- UI state of `+page.svelte`: `let defaultModal = $state(false)` and
`let pe_info = $state(null)`. -/
structure UIState where
  defaultModal : Bool
  pe_info : Option AnalysisResult
deriving DecidableEq, Repr

/-- Observable effects of `handleSubmit`'s promise handlers: the two state
assignments and the `alert` call. -/
inductive UIEvent where
  | setPeInfo (v : Option AnalysisResult)
  | setModal (b : Bool)
  | alertMsg (s : String)
deriving DecidableEq, Repr

/-- The effect sequence of `handleSubmit` once `invoke('analyze', ...)`
settles (src/routes/+page.svelte lines 17-26): on success `pe_info =
message; defaultModal = true`, on failure `pe_info = null;
alert("Error:" + error)`. -/
def handleSubmitEvents : Except String AnalysisResult → List UIEvent
  | .ok message => [.setPeInfo (some message), .setModal true]
  | .error err => [.setPeInfo none, .alertMsg ("Error:" ++ err)]

/-- State effect of one event. -/
def applyEvent (st : UIState) : UIEvent → UIState
  | .setPeInfo v => { st with pe_info := v }
  | .setModal b => { st with defaultModal := b }
  | .alertMsg _ => st

/-- Runs a sequence of events against a state. -/
def runEvents (st : UIState) (evs : List UIEvent) : UIState :=
  evs.foldl applyEvent st

/-! ### Concrete fixtures used by the witnesses and counterexamples -/

/-- Little-endian encoding of a 16-bit value. -/
def u16le (v : Nat) : List Nat := [v % 256, v / 256 % 256]

/-- Little-endian encoding of a 32-bit value. -/
def u32le (v : Nat) : List Nat :=
  [v % 256, v / 256 % 256, v / 65536 % 256, v / 16777216 % 256]

/-- A 40-byte section-header record. -/
def sectionEntryBytes (nm : List Nat) (vsize va rawsize rawptr : Nat) : List Nat :=
  (nm ++ List.replicate (8 - nm.length) 0) ++
    u32le vsize ++ u32le va ++ u32le rawsize ++ u32le rawptr ++
    List.replicate 16 0

/-- DOS header, NT signature, file header (given section count), optional
header with the given magic and 112 declared bytes, and export/import
data-directory entries.  The NT header sits at `0x40`; the section table
therefore starts at file offset 200. -/
def peHeaderBytes (magic nsec expRVA impRVA : Nat) : List Nat :=
  [0x4D, 0x5A] ++ List.replicate 58 0 ++ u32le 0x40 ++
    [0x50, 0x45, 0, 0] ++
    u16le 0x14C ++ u16le nsec ++ u32le 0 ++ u32le 0 ++ u32le 0 ++ u16le 112 ++ u16le 0 ++
    u16le magic ++ List.replicate 94 0 ++
    u32le expRVA ++ u32le 0 ++ u32le impRVA ++ u32le 0

/-- A minimal valid PE32 file: one `.text` section, no exports, no imports. -/
def fixtureBase : List Nat :=
  peHeaderBytes 0x10B 1 0 0 ++
    sectionEntryBytes [0x2E, 0x74, 0x65, 0x78, 0x74] 0x100 0x1000 0x100 0x200

/-- Same layout as `fixtureBase` but with an unrecognised optional-header
magic. -/
def fixtureBadMagic : List Nat :=
  peHeaderBytes 0x999 1 0 0 ++
    sectionEntryBytes [0x2E, 0x74, 0x65, 0x78, 0x74] 0x100 0x1000 0x100 0x200

/-- Two deliberately overlapping, zero-virtual-size sections. -/
def fixtureOverlap : List Nat :=
  peHeaderBytes 0x10B 2 0 0 ++
    sectionEntryBytes [0x41] 0 0x1000 0x80 0x200 ++
    sectionEntryBytes [0x42] 0x50 0x1040 0 0x300

/-- Export directory absent (RVA 0) but import-directory RVA pointing at an
address no section maps. -/
def fixtureBadImportDir : List Nat :=
  peHeaderBytes 0x10B 1 0 0x9000 ++
    sectionEntryBytes [0x2E, 0x74, 0x65, 0x78, 0x74] 0x100 0x1000 0x100 0x200

/-- One 20-byte import descriptor whose thunk table is at RVA `0x1080` and
whose name string is at the given RVA. -/
def descBytes (nameRVA : Nat) : List Nat :=
  u32le 0x1080 ++ u32le 0 ++ u32le 0 ++ u32le nameRVA ++ u32le 0x1080

/-- Import descriptors at RVA `0x1000` (file offset `0x200`) with no all-zero
terminator in reach: two back-to-back live descriptors, so any cap of at
most 2 is exhausted.  Each descriptor itself decodes fine (empty thunk
table at `0x1080`, name `"A"` at `0x1090`). -/
def fixtureUnterminated : List Nat :=
  peHeaderBytes 0x10B 1 0 0x1000 ++
    sectionEntryBytes [0x2E, 0x69, 0x64] 0x200 0x1000 0x200 0x200 ++
    List.replicate (0x200 - 240) 0 ++
    descBytes 0x1090 ++ descBytes 0x1090 ++
    List.replicate (0x290 - 0x228) 0 ++
    [0x41, 0]

/-- One live import descriptor (terminated at `0x214`) whose thunk table at
RVA `0x1080` (file offset `0x280`) holds two nonzero ordinal thunks and no
zero terminator in reach, so any thunk-walk cap of at most 2 is
exhausted. -/
def fixtureUnterminatedThunks : List Nat :=
  peHeaderBytes 0x10B 1 0 0x1000 ++
    sectionEntryBytes [0x2E, 0x69, 0x64] 0x200 0x1000 0x200 0x200 ++
    List.replicate (0x200 - 240) 0 ++
    descBytes 0x1090 ++ List.replicate 20 0 ++
    List.replicate (0x280 - 0x228) 0 ++
    u32le 0x80000001 ++ u32le 0x80000002 ++
    List.replicate (0x290 - 0x288) 0 ++
    [0x41, 0]

/-- A valid import table: one library `"D"` with an ordinal import (thunk
`0x80000005`) and a named import (hint 7, name `"Fn"`). -/
def fixtureImports : List Nat :=
  peHeaderBytes 0x10B 1 0 0x1000 ++
    sectionEntryBytes [0x2E, 0x69, 0x64] 0x200 0x1000 0x200 0x200 ++
    List.replicate (0x200 - 240) 0 ++
    (u32le 0x1080 ++ u32le 0 ++ u32le 0 ++ u32le 0x10A0 ++ u32le 0x1080) ++
    List.replicate 20 0 ++
    List.replicate (0x280 - 0x228) 0 ++
    u32le 0x80000005 ++ u32le 0x1090 ++ u32le 0 ++
    List.replicate (0x290 - 0x28C) 0 ++
    (u16le 7 ++ [0x46, 0x6E, 0]) ++
    List.replicate (0x2A0 - 0x295) 0 ++
    [0x44, 0]

/-- The value `analyze 4 "p" fixtureBase` computes to. -/
def resBase : AnalysisResult :=
  ⟨"p", 240, false, [⟨[46, 116, 101, 120, 116], 512, 4096, 4352⟩], [], []⟩

/-- The value `analyze 4 "p" fixtureOverlap` computes to. -/
def resOverlap : AnalysisResult :=
  ⟨"p", 280, false,
    [⟨[65], 512, 4096, 4224⟩, ⟨[66], 768, 4160, 4240⟩], [], []⟩

/-- The value `analyze 4 "p" fixtureImports` computes to. -/
def resImports : AnalysisResult :=
  ⟨"p", 674, false, [⟨[46, 105, 100], 512, 4096, 4608⟩], [],
    [⟨[68], [⟨true, 5, 0, []⟩, ⟨false, 0, 7, [70, 110]⟩]⟩]⟩

/-- The value `analyze 4 "p" fixtureEmptyName` computes to. -/
def resEmptyName : AnalysisResult :=
  ⟨"p", 674, false, [⟨[46, 105, 100], 512, 4096, 4608⟩], [],
    [⟨[68], [⟨false, 0, 0, []⟩]⟩]⟩

/-- Like `fixtureImports` but the single named thunk points at a hint/name
record whose name string is empty (the byte right after the hint is the
null terminator). -/
def fixtureEmptyName : List Nat :=
  peHeaderBytes 0x10B 1 0 0x1000 ++
    sectionEntryBytes [0x2E, 0x69, 0x64] 0x200 0x1000 0x200 0x200 ++
    List.replicate (0x200 - 240) 0 ++
    (u32le 0x1080 ++ u32le 0 ++ u32le 0 ++ u32le 0x10A0 ++ u32le 0x1080) ++
    List.replicate 20 0 ++
    List.replicate (0x280 - 0x228) 0 ++
    u32le 0x1090 ++ u32le 0 ++
    List.replicate (0x290 - 0x288) 0 ++
    [0, 0, 0] ++
    List.replicate (0x2A0 - 0x293) 0 ++
    [0x44, 0]

/-! ### Shared helper lemmas -/

theorem analyze_headers_error {buf : List Nat} {e : PEError} (cap : Nat) (path : String)
    (h : decodeHeaders buf = .error e) : analyze cap path buf = .error e := by
  unfold analyze
  rw [h]

theorem analyze_sections_error {buf : List Nat} {hdr : Header} {e : PEError}
    (cap : Nat) (path : String) (h1 : decodeHeaders buf = .ok hdr)
    (h2 : decodeSections buf hdr = .error e) : analyze cap path buf = .error e := by
  unfold analyze
  simp only [h1, h2]

theorem analyze_exports_error {buf : List Nat} {hdr : Header} {secs : List Section}
    {e : PEError} (cap : Nat) (path : String) (h1 : decodeHeaders buf = .ok hdr)
    (h2 : decodeSections buf hdr = .ok secs)
    (h3 : readExports buf secs hdr.exportRVA = .error e) :
    analyze cap path buf = .error e := by
  unfold analyze
  simp only [h1, h2, h3]

theorem analyze_imports_error {buf : List Nat} {hdr : Header} {secs : List Section}
    {exps : List ExportEntry} {e : PEError} (cap : Nat) (path : String)
    (h1 : decodeHeaders buf = .ok hdr) (h2 : decodeSections buf hdr = .ok secs)
    (h3 : readExports buf secs hdr.exportRVA = .ok exps)
    (h4 : readImports cap buf secs hdr.is_x64 hdr.importRVA = .error e) :
    analyze cap path buf = .error e := by
  unfold analyze
  simp only [h1, h2, h3, h4]

theorem analyze_all_ok {buf : List Nat} {hdr : Header} {secs : List Section}
    {exps : List ExportEntry} {imps : List ImportLibrary} (cap : Nat) (path : String)
    (h1 : decodeHeaders buf = .ok hdr) (h2 : decodeSections buf hdr = .ok secs)
    (h3 : readExports buf secs hdr.exportRVA = .ok exps)
    (h4 : readImports cap buf secs hdr.is_x64 hdr.importRVA = .ok imps) :
    analyze cap path buf = .ok ⟨path, buf.length, hdr.is_x64, secs, exps, imps⟩ := by
  unfold analyze
  simp only [h1, h2, h3, h4]

theorem analyze_ok_inv {cap : Nat} {path : String} {buf : List Nat} {r : AnalysisResult}
    (h : analyze cap path buf = .ok r) :
    ∃ hdr secs exps imps,
      decodeHeaders buf = .ok hdr ∧ decodeSections buf hdr = .ok secs ∧
      readExports buf secs hdr.exportRVA = .ok exps ∧
      readImports cap buf secs hdr.is_x64 hdr.importRVA = .ok imps ∧
      r = ⟨path, buf.length, hdr.is_x64, secs, exps, imps⟩ := by
  unfold analyze at h
  cases h1 : decodeHeaders buf with
  | error e => simp only [h1] at h; exact Except.noConfusion h
  | ok hdr =>
    simp only [h1] at h
    cases h2 : decodeSections buf hdr with
    | error e => simp only [h2] at h; exact Except.noConfusion h
    | ok secs =>
      simp only [h2] at h
      cases h3 : readExports buf secs hdr.exportRVA with
      | error e => simp only [h3] at h; exact Except.noConfusion h
      | ok exps =>
        simp only [h3] at h
        cases h4 : readImports cap buf secs hdr.is_x64 hdr.importRVA with
        | error e => simp only [h4] at h; exact Except.noConfusion h
        | ok imps =>
          simp only [h4] at h
          exact ⟨hdr, secs, exps, imps, rfl, h2, h3, h4, (Except.ok.inj h).symm⟩

/-! ### Claim theorems -/

/-- C1: `analyze(path)` is all-or-nothing: the first failing decode stage's
error kind is propagated unchanged and aborts the whole call, and only when
every stage succeeds does `analyze` return the complete `AnalysisResult`
assembled from the decoded pieces; no partial result is ever produced. -/
theorem analyze_first_error (cap : Nat) (path : String) (buf : List Nat) :
    (∀ e, decodeHeaders buf = .error e → analyze cap path buf = .error e) ∧
    (∀ hdr e, decodeHeaders buf = .ok hdr → decodeSections buf hdr = .error e →
      analyze cap path buf = .error e) ∧
    (∀ hdr secs e, decodeHeaders buf = .ok hdr → decodeSections buf hdr = .ok secs →
      readExports buf secs hdr.exportRVA = .error e → analyze cap path buf = .error e) ∧
    (∀ hdr secs exps e, decodeHeaders buf = .ok hdr → decodeSections buf hdr = .ok secs →
      readExports buf secs hdr.exportRVA = .ok exps →
      readImports cap buf secs hdr.is_x64 hdr.importRVA = .error e →
      analyze cap path buf = .error e) ∧
    (∀ hdr secs exps imps, decodeHeaders buf = .ok hdr → decodeSections buf hdr = .ok secs →
      readExports buf secs hdr.exportRVA = .ok exps →
      readImports cap buf secs hdr.is_x64 hdr.importRVA = .ok imps →
      analyze cap path buf = .ok ⟨path, buf.length, hdr.is_x64, secs, exps, imps⟩) :=
  ⟨fun _ h => analyze_headers_error cap path h,
   fun _ _ h1 h2 => analyze_sections_error cap path h1 h2,
   fun _ _ _ h1 h2 h3 => analyze_exports_error cap path h1 h2 h3,
   fun _ _ _ _ h1 h2 h3 h4 => analyze_imports_error cap path h1 h2 h3 h4,
   fun _ _ _ _ h1 h2 h3 h4 => analyze_all_ok cap path h1 h2 h3 h4⟩

/-- Witness for C1 at two concrete files: a bad-architecture fixture whose
header error surfaces unchanged, and a fully valid fixture producing the
complete record. -/
theorem analyze_first_error_witness :
    analyze 4 "p" fixtureBadMagic = .error .UnsupportedArchitecture ∧
    analyze 4 "p" fixtureBase =
      .ok ⟨"p", fixtureBase.length, false,
        [⟨[46, 116, 101, 120, 116], 512, 4096, 4352⟩], [], []⟩ :=
  ⟨(analyze_first_error 4 "p" fixtureBadMagic).1 .UnsupportedArchitecture (by decide),
   (analyze_first_error 4 "p" fixtureBase).2.2.2.2 ⟨false, 332, 1, 200, 0, 0, 0, 0⟩
     [⟨[46, 116, 101, 120, 116], 512, 4096, 4352⟩] [] []
     (by decide) (by decide) (by decide) (by decide)⟩

/-- C8: `analyze` is deterministic: two runs over the same path and the same
unmodified byte content produce identical outcomes. -/
theorem analyze_deterministic (cap : Nat) (path : String) (buf : List Nat)
    (r1 r2 : Except PEError AnalysisResult)
    (h1 : analyze cap path buf = r1) (h2 : analyze cap path buf = r2) : r1 = r2 := by
  rw [← h1, ← h2]

/-- Witness for C8 at a concrete file. -/
theorem analyze_deterministic_witness :
    analyze 4 "p" fixtureBase = .ok resBase :=
  analyze_deterministic 4 "p" fixtureBase (analyze 4 "p" fixtureBase) (.ok resBase)
    rfl (by decide)

/-- The section-containment test of the RVA Translator as a Boolean
predicate, for phrasing "first match in file order" via `List.find?`. -/
def containsRVA (rva : Nat) (s : Section) : Bool :=
  decide (s.rva ≤ rva ∧ rva < s.rv_end)

/-- C3: `translate` returns `rawPointer + (rva - virtualAddress)` of the
first section in file order whose `[virtualAddress, virtualEnd)` range
contains the RVA, and fails with `UnmappedAddress` when no section's range
contains it. -/
theorem translate_first_match (secs : List Section) (rva : Nat) :
    (∀ s, secs.find? (containsRVA rva) = some s →
       translate secs rva = .ok (s.ptr_raw_data + (rva - s.rva))) ∧
    (secs.find? (containsRVA rva) = none →
       translate secs rva = .error .UnmappedAddress) := by
  induction secs with
  | nil =>
    exact ⟨fun s h => by rw [List.find?_nil] at h; exact Option.noConfusion h, fun _ => rfl⟩
  | cons a l ih =>
    by_cases hc : a.rva ≤ rva ∧ rva < a.rv_end
    · refine ⟨fun s hs => ?_, fun hn => ?_⟩
      · rw [List.find?_cons_of_pos l (by simpa [containsRVA] using hc)] at hs
        injection hs with hs
        subst hs
        unfold translate
        rw [if_pos hc]
      · rw [List.find?_cons_of_pos l (by simpa [containsRVA] using hc)] at hn
        exact Option.noConfusion hn
    · refine ⟨fun s hs => ?_, fun hn => ?_⟩
      · rw [List.find?_cons_of_neg l (by simpa [containsRVA] using hc)] at hs
        have hrec := ih.1 s hs
        unfold translate
        rw [if_neg hc]
        exact hrec
      · rw [List.find?_cons_of_neg l (by simpa [containsRVA] using hc)] at hn
        have hrec := ih.2 hn
        unfold translate
        rw [if_neg hc]
        exact hrec

/-- Witness for C3: an RVA inside two overlapping sections resolves through
the first one; an RVA outside every section is unmapped. -/
theorem translate_first_match_witness :
    translate [⟨[65], 512, 4096, 4224⟩, ⟨[66], 768, 4160, 4240⟩] 4200 =
      .ok (512 + (4200 - 4096)) ∧
    translate [⟨[65], 512, 4096, 4224⟩, ⟨[66], 768, 4160, 4240⟩] 5000 =
      .error .UnmappedAddress :=
  ⟨(translate_first_match _ 4200).1 ⟨[65], 512, 4096, 4224⟩ (by decide),
   (translate_first_match _ 5000).2 (by decide)⟩

/-- C9: whenever the `analyze` invocation fails, `handleSubmit` resets the
stored `pe_info` to null before surfacing the error: after the catch handler
runs, no previously held result remains (`pe_info = none`, the modal flag is
untouched), and in the effect sequence the reset precedes the alert. -/
theorem error_resets_pe_info (st : UIState) (err : String) :
    (runEvents st (handleSubmitEvents (.error err))).pe_info = none ∧
    (runEvents st (handleSubmitEvents (.error err))).defaultModal = st.defaultModal ∧
    (∀ k s, (handleSubmitEvents (.error err)).get? k = some (.alertMsg s) →
       ∃ j, j < k ∧ (handleSubmitEvents (.error err)).get? j = some (.setPeInfo none)) := by
  refine ⟨rfl, rfl, ?_⟩
  intro k s hk
  match k with
  | 0 => simp [handleSubmitEvents] at hk
  | 1 => exact ⟨0, Nat.zero_lt_one, rfl⟩
  | k + 2 => simp [handleSubmitEvents] at hk

/-- Witness for C9 at a concrete state holding a stale result. -/
theorem error_resets_pe_info_witness :
    (runEvents ⟨true, some resBase⟩ (handleSubmitEvents (.error "boom"))).pe_info = none ∧
    ∃ j, j < 1 ∧
      (handleSubmitEvents (Except.error "boom")).get? j = some (.setPeInfo none) :=
  ⟨(error_resets_pe_info ⟨true, some resBase⟩ "boom").1,
   (error_resets_pe_info ⟨true, some resBase⟩ "boom").2.2 1 ("Error:" ++ "boom") rfl⟩

/-- C10: `handleSubmit` sets `defaultModal` to true only after `pe_info` has
been assigned the successful result: on the success path the final state has
the modal open with `pe_info` populated, any `setModal true` effect is
preceded by the `pe_info` assignment of that same result, and the failure
path never touches `defaultModal` — so a submission never opens the modal
while `pe_info` is null. -/
theorem modal_only_after_result (st : UIState) (res : Except String AnalysisResult) :
    (∀ m, res = .ok m →
       (runEvents st (handleSubmitEvents res)).defaultModal = true ∧
       (runEvents st (handleSubmitEvents res)).pe_info = some m) ∧
    (∀ i, (handleSubmitEvents res).get? i = some (.setModal true) →
       ∃ m j, res = .ok m ∧ j < i ∧
         (handleSubmitEvents res).get? j = some (.setPeInfo (some m))) ∧
    (∀ e, res = .error e →
       (runEvents st (handleSubmitEvents res)).defaultModal = st.defaultModal) := by
  cases res with
  | ok m =>
    refine ⟨fun m' hm' => ?_, fun i hi => ?_, fun e he => Except.noConfusion he⟩
    · injection hm' with hm'
      subst hm'
      exact ⟨rfl, rfl⟩
    · match i with
      | 0 => simp [handleSubmitEvents] at hi
      | 1 => exact ⟨m, 0, rfl, Nat.zero_lt_one, rfl⟩
      | i + 2 => simp [handleSubmitEvents] at hi
  | error e =>
    refine ⟨fun m' hm' => Except.noConfusion hm', fun i hi => ?_, fun e' he' => rfl⟩
    match i with
    | 0 => simp [handleSubmitEvents] at hi
    | 1 => simp [handleSubmitEvents] at hi
    | i + 2 => simp [handleSubmitEvents] at hi

/-- Witness for C10 at a concrete successful submission from the empty
state. -/
theorem modal_only_after_result_witness :
    ((runEvents ⟨false, none⟩ (handleSubmitEvents (.ok resBase))).defaultModal = true ∧
     (runEvents ⟨false, none⟩ (handleSubmitEvents (.ok resBase))).pe_info = some resBase) ∧
    ∃ m j, (Except.ok resBase : Except String AnalysisResult) = .ok m ∧ j < 1 ∧
      (handleSubmitEvents (Except.ok resBase)).get? j = some (.setPeInfo (some m)) :=
  ⟨(modal_only_after_result ⟨false, none⟩ (.ok resBase)).1 resBase rfl,
   (modal_only_after_result ⟨false, none⟩ (.ok resBase)).2.1 1 rfl⟩

theorem decodeHeaders_ok_inv {buf : List Nat} {hdr : Header}
    (h : decodeHeaders buf = .ok hdr) :
    ∃ peOff magic, readU32 buf 0x3C = .ok peOff ∧ readU16 buf (peOff + 24) = .ok magic ∧
      ((magic = 0x10B ∧ hdr.is_x64 = false) ∨ (magic = 0x20B ∧ hdr.is_x64 = true)) := by
  unfold decodeHeaders at h
  cases hm0 : readU8 buf 0 with
  | error e => simp only [hm0] at h; exact Except.noConfusion h
  | ok m0 =>
    simp only [hm0] at h
    cases hm1 : readU8 buf 1 with
    | error e => simp only [hm1] at h; exact Except.noConfusion h
    | ok m1 =>
      simp only [hm1] at h
      split at h
      · cases hpe : readU32 buf 0x3C with
        | error e => simp only [hpe] at h; exact Except.noConfusion h
        | ok peOff =>
          simp only [hpe] at h
          cases hs0 : readU8 buf peOff with
          | error e => simp only [hs0] at h; exact Except.noConfusion h
          | ok s0 =>
            simp only [hs0] at h
            cases hs1 : readU8 buf (peOff + 1) with
            | error e => simp only [hs1] at h; exact Except.noConfusion h
            | ok s1 =>
              simp only [hs1] at h
              cases hs2 : readU8 buf (peOff + 2) with
              | error e => simp only [hs2] at h; exact Except.noConfusion h
              | ok s2 =>
                simp only [hs2] at h
                cases hs3 : readU8 buf (peOff + 3) with
                | error e => simp only [hs3] at h; exact Except.noConfusion h
                | ok s3 =>
                  simp only [hs3] at h
                  split at h
                  · cases hma : readU16 buf (peOff + 4) with
                    | error e => simp only [hma] at h; exact Except.noConfusion h
                    | ok machine =>
                      simp only [hma] at h
                      cases hns : readU16 buf (peOff + 6) with
                      | error e => simp only [hns] at h; exact Except.noConfusion h
                      | ok nsec =>
                        simp only [hns] at h
                        cases hos : readU16 buf (peOff + 20) with
                        | error e => simp only [hos] at h; exact Except.noConfusion h
                        | ok optSize =>
                          simp only [hos] at h
                          cases hmg : readU16 buf (peOff + 24) with
                          | error e => simp only [hmg] at h; exact Except.noConfusion h
                          | ok magic =>
                            simp only [hmg] at h
                            split at h
                            next hmag =>
                              cases hdd : readDataDirs buf (peOff + 24 + 96) with
                              | error e => simp only [hdd] at h; exact Except.noConfusion h
                              | ok q =>
                                obtain ⟨eR, eS, iR, iS⟩ := q
                                simp only [hdd] at h
                                refine ⟨peOff, magic, rfl, hmg, Or.inl ⟨hmag, ?_⟩⟩
                                rw [← Except.ok.inj h]
                            next =>
                              split at h
                              next hmag =>
                                cases hdd : readDataDirs buf (peOff + 24 + 112) with
                                | error e => simp only [hdd] at h; exact Except.noConfusion h
                                | ok q =>
                                  obtain ⟨eR, eS, iR, iS⟩ := q
                                  simp only [hdd] at h
                                  refine ⟨peOff, magic, rfl, hmg, Or.inr ⟨hmag, ?_⟩⟩
                                  rw [← Except.ok.inj h]
                              next => exact Except.noConfusion h
                  · exact Except.noConfusion h
      · exact Except.noConfusion h

theorem decodeHeaders_bad_magic {buf : List Nat} {peOff machine nsec optSize magic : Nat}
    (h0 : readU8 buf 0 = .ok 0x4D) (h1 : readU8 buf 1 = .ok 0x5A)
    (hpe : readU32 buf 0x3C = .ok peOff)
    (hs0 : readU8 buf peOff = .ok 0x50) (hs1 : readU8 buf (peOff + 1) = .ok 0x45)
    (hs2 : readU8 buf (peOff + 2) = .ok 0) (hs3 : readU8 buf (peOff + 3) = .ok 0)
    (hm : readU16 buf (peOff + 4) = .ok machine) (hn : readU16 buf (peOff + 6) = .ok nsec)
    (ho : readU16 buf (peOff + 20) = .ok optSize)
    (hmg : readU16 buf (peOff + 24) = .ok magic)
    (hb1 : magic ≠ 0x10B) (hb2 : magic ≠ 0x20B) :
    decodeHeaders buf = .error .UnsupportedArchitecture := by
  unfold decodeHeaders
  simp [h0, h1, hpe, hs0, hs1, hs2, hs3, hm, hn, ho, hmg, hb1, hb2]

/-- C2: for every accepted file the result's `is_x64` flag is determined
solely by the optional header's 16-bit magic — `0x10B` gives `false`,
`0x20B` gives `true` — and when the headers decode up to a magic that is
neither value, `analyze` fails with `UnsupportedArchitecture` instead of
returning a result. -/
theorem arch_from_magic (cap : Nat) (path : String) (buf : List Nat) :
    (∀ r, analyze cap path buf = .ok r →
       ∃ peOff magic, readU32 buf 0x3C = .ok peOff ∧
         readU16 buf (peOff + 24) = .ok magic ∧
         ((magic = 0x10B ∧ r.is_x64 = false) ∨ (magic = 0x20B ∧ r.is_x64 = true))) ∧
    (∀ peOff machine nsec optSize magic,
       readU8 buf 0 = .ok 0x4D → readU8 buf 1 = .ok 0x5A →
       readU32 buf 0x3C = .ok peOff →
       readU8 buf peOff = .ok 0x50 → readU8 buf (peOff + 1) = .ok 0x45 →
       readU8 buf (peOff + 2) = .ok 0 → readU8 buf (peOff + 3) = .ok 0 →
       readU16 buf (peOff + 4) = .ok machine → readU16 buf (peOff + 6) = .ok nsec →
       readU16 buf (peOff + 20) = .ok optSize →
       readU16 buf (peOff + 24) = .ok magic →
       magic ≠ 0x10B → magic ≠ 0x20B →
       analyze cap path buf = .error .UnsupportedArchitecture) := by
  constructor
  · intro r hr
    obtain ⟨hdr, secs, exps, imps, hh, _, _, _, hre⟩ := analyze_ok_inv hr
    obtain ⟨peOff, magic, hpe, hmg, hcase⟩ := decodeHeaders_ok_inv hh
    refine ⟨peOff, magic, hpe, hmg, ?_⟩
    have hx : r.is_x64 = hdr.is_x64 := by rw [hre]
    rw [hx]
    exact hcase
  · intro peOff machine nsec optSize magic h0 h1 hpe hs0 hs1 hs2 hs3 hm hn ho hmg hb1 hb2
    exact analyze_headers_error cap path
      (decodeHeaders_bad_magic h0 h1 hpe hs0 hs1 hs2 hs3 hm hn ho hmg hb1 hb2)

/-- Witness for C2: the PE32 fixture (magic `0x10B`, `is_x64 = false`) and a
fixture whose optional-header magic `0x999` is rejected. -/
theorem arch_from_magic_witness :
    (∃ peOff magic, readU32 fixtureBase 0x3C = .ok peOff ∧
       readU16 fixtureBase (peOff + 24) = .ok magic ∧
       ((magic = 0x10B ∧ resBase.is_x64 = false) ∨
        (magic = 0x20B ∧ resBase.is_x64 = true))) ∧
    analyze 4 "q" fixtureBadMagic = .error .UnsupportedArchitecture :=
  ⟨(arch_from_magic 4 "p" fixtureBase).1 resBase (by decide),
   (arch_from_magic 4 "q" fixtureBadMagic).2 0x40 0x14C 1 112 0x999
     (by decide) (by decide) (by decide) (by decide) (by decide) (by decide) (by decide)
     (by decide) (by decide) (by decide) (by decide) (by decide) (by decide)⟩

theorem decodeSectionEntry_ok_inv {buf : List Nat} {off : Nat} {s : Section}
    (h : decodeSectionEntry buf off = .ok s) :
    ∃ vsize rawsize, readU32 buf (off + 8) = .ok vsize ∧
      readU32 buf (off + 12) = .ok s.rva ∧ readU32 buf (off + 16) = .ok rawsize ∧
      readU32 buf (off + 20) = .ok s.ptr_raw_data ∧
      s.rv_end = s.rva + max vsize rawsize := by
  unfold decodeSectionEntry at h
  cases h0 : readBytesN buf off 8 with
  | error e => simp only [h0] at h; exact Except.noConfusion h
  | ok nm =>
    simp only [h0] at h
    cases h1 : readU32 buf (off + 8) with
    | error e => simp only [h1] at h; exact Except.noConfusion h
    | ok vsize =>
      simp only [h1] at h
      cases h2 : readU32 buf (off + 12) with
      | error e => simp only [h2] at h; exact Except.noConfusion h
      | ok va =>
        simp only [h2] at h
        cases h3 : readU32 buf (off + 16) with
        | error e => simp only [h3] at h; exact Except.noConfusion h
        | ok rawsize =>
          simp only [h3] at h
          cases h4 : readU32 buf (off + 20) with
          | error e => simp only [h4] at h; exact Except.noConfusion h
          | ok rawptr =>
            simp only [h4] at h
            cases Except.ok.inj h
            exact ⟨vsize, rawsize, rfl, rfl, rfl, rfl, rfl⟩

theorem decodeSectionsFrom_mem {buf : List Nat} :
    ∀ {n off : Nat} {l : List Section}, decodeSectionsFrom buf off n = .ok l →
      ∀ s ∈ l, ∃ o, decodeSectionEntry buf o = .ok s := by
  intro n
  induction n with
  | zero =>
    intro off l h s hs
    unfold decodeSectionsFrom at h
    cases Except.ok.inj h
    exact absurd hs (List.not_mem_nil s)
  | succ n ih =>
    intro off l h s hs
    unfold decodeSectionsFrom at h
    cases h1 : decodeSectionEntry buf off with
    | error e => simp only [h1] at h; exact Except.noConfusion h
    | ok sec =>
      simp only [h1] at h
      cases h2 : decodeSectionsFrom buf (off + 40) n with
      | error e => simp only [h2] at h; exact Except.noConfusion h
      | ok rest =>
        simp only [h2] at h
        cases Except.ok.inj h
        cases hs with
        | head => exact ⟨off, h1⟩
        | tail _ hmem => exact ih h2 s hmem

/-- C4: every section of a successfully returned result satisfies
`virtualEnd = virtualAddress + max(virtualSize, rawSize)` — the sizes being
exactly the 32-bit fields decoded from that section's header record — and
consequently `virtualEnd ≥ virtualAddress`; the decoder imposes no
ordering or disjointness condition on the decoded ranges. -/
theorem sections_virtual_end (cap : Nat) (path : String) (buf : List Nat)
    (r : AnalysisResult) (h : analyze cap path buf = .ok r) :
    ∀ s ∈ r.sections, s.rva ≤ s.rv_end ∧ ∃ off vsize rawsize,
      readU32 buf (off + 8) = .ok vsize ∧ readU32 buf (off + 12) = .ok s.rva ∧
      readU32 buf (off + 16) = .ok rawsize ∧
      readU32 buf (off + 20) = .ok s.ptr_raw_data ∧
      s.rv_end = s.rva + max vsize rawsize := by
  obtain ⟨hdr, secs, exps, imps, hh, hsec, hexp, himp, hre⟩ := analyze_ok_inv h
  intro s hs
  have hs' : s ∈ secs := by rw [hre] at hs; exact hs
  unfold decodeSections at hsec
  split at hsec
  · obtain ⟨o, ho⟩ := decodeSectionsFrom_mem hsec s hs'
    obtain ⟨vsize, rawsize, hv, hva, hraw, hptr, hend⟩ := decodeSectionEntry_ok_inv ho
    refine ⟨?_, o, vsize, rawsize, hv, hva, hraw, hptr, hend⟩
    rw [hend]
    exact Nat.le_add_right _ _
  · exact Except.noConfusion hsec

/-- Witness for C4 at a fixture with two deliberately overlapping sections:
the analysis succeeds (overlap is tolerated), and the theorem yields
`virtualEnd ≥ virtualAddress` for both decoded sections, whose ranges
`[4096, 4224)` and `[4160, 4240)` indeed overlap. -/
theorem sections_virtual_end_witness :
    analyze 4 "p" fixtureOverlap = .ok resOverlap ∧
    (∀ s ∈ resOverlap.sections, s.rva ≤ s.rv_end) ∧
    resOverlap.sections.get? 0 = some ⟨[65], 512, 4096, 4224⟩ ∧
    resOverlap.sections.get? 1 = some ⟨[66], 768, 4160, 4240⟩ ∧ 4160 < 4224 :=
  ⟨by decide,
   fun s hs => (sections_virtual_end 4 "p" fixtureOverlap resOverlap (by decide) s hs).1,
   by decide, by decide, by decide⟩

/-- C5 counterexample: a file whose optional-header export-directory RVA is 0
on which `analyze` nevertheless fails (its import-directory RVA maps to no
section), so "analyze succeeds" does not follow from a zero directory RVA. -/
theorem zero_export_rva_analyze_can_fail :
    (decodeHeaders fixtureBadImportDir).map (fun hdr => hdr.exportRVA) = .ok 0 ∧
    analyze 4 "p" fixtureBadImportDir = .error .CorruptDirectory :=
  ⟨by decide, by decide⟩

/-- C5 (amended): a zero export-directory RVA never causes an error and, on
any run of `analyze` that returns a result, yields `export_table = []`;
symmetrically for a zero import-directory RVA and `import_table`;
`readExports`/`readImports` applied to RVA 0 always return `ok []`. -/
theorem zero_dir_rvas (cap : Nat) (path : String) (buf : List Nat)
    (r : AnalysisResult) (hdr : Header)
    (h : analyze cap path buf = .ok r) (hh : decodeHeaders buf = .ok hdr) :
    (hdr.exportRVA = 0 → r.export_table = []) ∧
    (hdr.importRVA = 0 → r.import_table = []) ∧
    (∀ secs, readExports buf secs 0 = .ok []) ∧
    (∀ secs x64, readImports cap buf secs x64 0 = .ok []) := by
  obtain ⟨hdr', secs, exps, imps, hh', hsec, hexp, himp, hre⟩ := analyze_ok_inv h
  have hdre : hdr' = hdr := Except.ok.inj (hh'.symm.trans hh)
  subst hdre
  refine ⟨?_, ?_, fun secs' => by unfold readExports; rw [if_pos rfl],
    fun secs' x64 => by unfold readImports; rw [if_pos rfl]⟩
  · intro hz
    rw [hz] at hexp
    unfold readExports at hexp
    rw [if_pos rfl] at hexp
    have hnil : exps = [] := (Except.ok.inj hexp).symm
    rw [hre]
    exact hnil
  · intro hz
    rw [hz] at himp
    unfold readImports at himp
    rw [if_pos rfl] at himp
    have hnil : imps = [] := (Except.ok.inj himp).symm
    rw [hre]
    exact hnil

/-- Witness for the amended C5 at the base fixture (both directory RVAs 0,
both tables empty). -/
theorem zero_dir_rvas_witness :
    resBase.export_table = [] ∧ resBase.import_table = [] ∧
    readExports fixtureBase [] 0 = .ok [] ∧
    readImports 4 fixtureBase [] false 0 = .ok [] := by
  have h := zero_dir_rvas 4 "p" fixtureBase resBase ⟨false, 332, 1, 200, 0, 0, 0, 0⟩
    (by decide) (by decide)
  exact ⟨h.1 rfl, h.2.1 rfl, h.2.2.1 [], h.2.2.2 [] false⟩

theorem decodeThunk_ok_inv {buf : List Nat} {secs : List Section} {x64 : Bool}
    {t : Nat} {f : ImportFunction} (h : decodeThunk buf secs x64 t = .ok f) :
    (f.is_ordinal = true →
       f.name = [] ∧ f.hint = 0 ∧ ∃ t', thunkHighBit x64 ≤ t' ∧ f.ordinal = t' % 2 ^ 16) ∧
    (f.is_ordinal = false →
       f.ordinal = 0 ∧ ∃ o, readHintName buf o = .ok (f.hint, f.name)) := by
  unfold decodeThunk at h
  split at h
  next hbit =>
    cases Except.ok.inj h
    exact ⟨fun _ => ⟨rfl, rfl, t, hbit, rfl⟩, fun hc => Bool.noConfusion hc⟩
  next hbit =>
    cases h1 : translateDir secs t with
    | error e => simp only [h1] at h; exact Except.noConfusion h
    | ok hnOff =>
      simp only [h1] at h
      cases h2 : readHintName buf hnOff with
      | error e => simp only [h2] at h; exact Except.noConfusion h
      | ok p =>
        obtain ⟨hint, nm⟩ := p
        simp only [h2] at h
        cases Except.ok.inj h
        exact ⟨fun hc => Bool.noConfusion hc, fun _ => ⟨rfl, hnOff, h2⟩⟩

theorem walkThunks_mem {buf : List Nat} {secs : List Section} {x64 : Bool} :
    ∀ {fuel off : Nat} {l : List ImportFunction},
      walkThunks buf secs x64 off fuel = .ok l →
      ∀ f ∈ l, ∃ t, decodeThunk buf secs x64 t = .ok f := by
  intro fuel
  induction fuel with
  | zero =>
    intro off l h f hf
    unfold walkThunks at h
    exact Except.noConfusion h
  | succ n ih =>
    intro off l h f hf
    unfold walkThunks at h
    cases h1 : readThunk buf x64 off with
    | error e => simp only [h1] at h; exact Except.noConfusion h
    | ok t =>
      simp only [h1] at h
      split at h
      · cases Except.ok.inj h
        exact absurd hf (List.not_mem_nil f)
      · cases h2 : decodeThunk buf secs x64 t with
        | error e => simp only [h2] at h; exact Except.noConfusion h
        | ok g =>
          simp only [h2] at h
          cases h3 : walkThunks buf secs x64 (off + thunkSize x64) n with
          | error e => simp only [h3] at h; exact Except.noConfusion h
          | ok rest =>
            simp only [h3] at h
            cases Except.ok.inj h
            cases hf with
            | head => exact ⟨t, h2⟩
            | tail _ hmem => exact ih h3 f hmem

theorem stepDescriptor_funcs {buf : List Nat} {secs : List Section} {x64 : Bool}
    {cap off : Nat} {lib : ImportLibrary}
    (h : stepDescriptor buf secs x64 cap off = .ok (some lib)) :
    ∀ f ∈ lib.functions, ∃ t, decodeThunk buf secs x64 t = .ok f := by
  unfold stepDescriptor at h
  cases h1 : readDescriptor buf off with
  | error e => simp only [h1] at h; exact Except.noConfusion h
  | ok d =>
    obtain ⟨oft, ts, fc, nameRVA, ft⟩ := d
    simp only [h1] at h
    split at h
    · exact Option.noConfusion (Except.ok.inj h)
    · cases h2 : translateDir secs nameRVA with
      | error e => simp only [h2] at h; exact Except.noConfusion h
      | ok nOff =>
        simp only [h2] at h
        cases h3 : readCString buf nOff with
        | error e => simp only [h3] at h; exact Except.noConfusion h
        | ok dll =>
          simp only [h3] at h
          cases h4 : translateDir secs (if oft = 0 then ft else oft) with
          | error e => simp only [h4] at h; exact Except.noConfusion h
          | ok tOff =>
            simp only [h4] at h
            cases h5 : walkThunks buf secs x64 tOff cap with
            | error e => simp only [h5] at h; exact Except.noConfusion h
            | ok funcs =>
              simp only [h5] at h
              cases Option.some.inj (Except.ok.inj h)
              exact walkThunks_mem h5

theorem walkDescriptors_mem {buf : List Nat} {secs : List Section} {x64 : Bool}
    {cap : Nat} :
    ∀ {fuel off : Nat} {libs : List ImportLibrary},
      walkDescriptors buf secs x64 cap off fuel = .ok libs →
      ∀ lib ∈ libs, ∃ o, stepDescriptor buf secs x64 cap o = .ok (some lib) := by
  intro fuel
  induction fuel with
  | zero =>
    intro off libs h lib hlib
    unfold walkDescriptors at h
    exact Except.noConfusion h
  | succ n ih =>
    intro off libs h lib hlib
    unfold walkDescriptors at h
    cases h1 : stepDescriptor buf secs x64 cap off with
    | error e => simp only [h1] at h; exact Except.noConfusion h
    | ok o =>
      cases o with
      | none =>
        simp only [h1] at h
        cases Except.ok.inj h
        exact absurd hlib (List.not_mem_nil lib)
      | some l0 =>
        simp only [h1] at h
        cases h2 : walkDescriptors buf secs x64 cap (off + 20) n with
        | error e => simp only [h2] at h; exact Except.noConfusion h
        | ok rest =>
          simp only [h2] at h
          cases Except.ok.inj h
          cases hlib with
          | head => exact ⟨off, h1⟩
          | tail _ hmem => exact ih h2 lib hmem

theorem readImports_mem {cap : Nat} {buf : List Nat} {secs : List Section}
    {x64 : Bool} {rva : Nat} {imps : List ImportLibrary}
    (h : readImports cap buf secs x64 rva = .ok imps) :
    ∀ lib ∈ imps, ∃ o, stepDescriptor buf secs x64 cap o = .ok (some lib) := by
  unfold readImports at h
  split at h
  · cases Except.ok.inj h
    exact fun lib hlib => absurd hlib (List.not_mem_nil lib)
  · cases h1 : translateDir secs rva with
    | error e => simp only [h1] at h; exact Except.noConfusion h
    | ok off =>
      simp only [h1] at h
      exact walkDescriptors_mem h

/-- C6 counterexample: a successfully analyzed file containing an imported
function with `is_ordinal = false` and an empty name (its hint/name record's
name string is empty), so `isOrdinal` and "non-empty name present" are not
exhaustive. -/
theorem import_func_empty_name_possible :
    analyze 4 "p" fixtureEmptyName = .ok resEmptyName ∧
    ∃ lib ∈ resEmptyName.import_table, ∃ f ∈ lib.functions,
      f.is_ordinal = false ∧ f.name = [] :=
  ⟨by decide, ⟨[68], [⟨false, 0, 0, []⟩]⟩, by decide, ⟨false, 0, 0, []⟩, by decide, rfl, rfl⟩

/-- C6 (amended): for every `ImportFunction` of a successful result, the two
representations are governed by `is_ordinal`: when it is true the name is
empty, the hint unset, and the ordinal is the low-order 16 bits of a
high-bit-set thunk; when it is false the ordinal is unset and the hint and
name come from a decoded hint/name record (whose name may itself be
empty). -/
theorem import_func_exclusive (cap : Nat) (path : String) (buf : List Nat)
    (r : AnalysisResult) (h : analyze cap path buf = .ok r) :
    ∀ lib ∈ r.import_table, ∀ f ∈ lib.functions,
      (f.is_ordinal = true →
         f.name = [] ∧ f.hint = 0 ∧
         ∃ t, thunkHighBit r.is_x64 ≤ t ∧ f.ordinal = t % 2 ^ 16) ∧
      (f.is_ordinal = false →
         f.ordinal = 0 ∧ ∃ o, readHintName buf o = .ok (f.hint, f.name)) := by
  obtain ⟨hdr, secs, exps, imps, hh, hsec, hexp, himp, hre⟩ := analyze_ok_inv h
  intro lib hlib f hf
  have hx : r.is_x64 = hdr.is_x64 := by rw [hre]
  have hlib' : lib ∈ imps := by rw [hre] at hlib; exact hlib
  obtain ⟨o, ho⟩ := readImports_mem himp lib hlib'
  obtain ⟨t, ht⟩ := stepDescriptor_funcs ho f hf
  rw [hx]
  exact decodeThunk_ok_inv ht

/-- Witness for the amended C6 at the import fixture: its ordinal import's
ordinal comes from a high-bit-set thunk, and its named import's hint/name
pair is readable from the file. -/
theorem import_func_exclusive_witness :
    (∃ t, thunkHighBit resImports.is_x64 ≤ t ∧ (5 : Nat) = t % 2 ^ 16) ∧
    (∃ o, readHintName fixtureImports o = .ok (7, [70, 110])) := by
  have h := import_func_exclusive 4 "p" fixtureImports resImports (by decide)
  have hl := h ⟨[68], [⟨true, 5, 0, []⟩, ⟨false, 0, 7, [70, 110]⟩]⟩ (by decide)
  exact ⟨((hl ⟨true, 5, 0, []⟩ (by decide)).1 rfl).2.2,
    ((hl ⟨false, 0, 7, [70, 110]⟩ (by decide)).2 rfl).2⟩

theorem walkDescriptors_unterminated {buf : List Nat} {secs : List Section}
    {x64 : Bool} {cap : Nat} :
    ∀ {fuel off : Nat},
      (∀ i, i < fuel →
         ∃ lib, stepDescriptor buf secs x64 cap (off + 20 * i) = .ok (some lib)) →
      walkDescriptors buf secs x64 cap off fuel = .error .CorruptDirectory := by
  intro fuel
  induction fuel with
  | zero => intro off _; rfl
  | succ n ih =>
    intro off hstep
    obtain ⟨lib, hlib⟩ := hstep 0 n.succ_pos
    have hlib0 : stepDescriptor buf secs x64 cap off = .ok (some lib) := by
      simpa using hlib
    have hrec : walkDescriptors buf secs x64 cap (off + 20) n = .error .CorruptDirectory := by
      apply ih
      intro i hi
      obtain ⟨l, hl⟩ := hstep (i + 1) (Nat.succ_lt_succ hi)
      refine ⟨l, ?_⟩
      have harith : off + 20 * (i + 1) = off + 20 + 20 * i := by ring
      rw [← harith]
      exact hl
    unfold walkDescriptors
    simp only [hlib0, hrec]

theorem walkThunks_unbounded {buf : List Nat} {secs : List Section} {x64 : Bool} :
    ∀ {fuel off : Nat},
      (∀ i, i < fuel → ∃ t f,
         readThunk buf x64 (off + thunkSize x64 * i) = .ok t ∧ t ≠ 0 ∧
         decodeThunk buf secs x64 t = .ok f) →
      walkThunks buf secs x64 off fuel = .error .CorruptDirectory := by
  intro fuel
  induction fuel with
  | zero => intro off _; rfl
  | succ n ih =>
    intro off hstep
    obtain ⟨t, f, ht, htnz, hf⟩ := hstep 0 n.succ_pos
    have ht0 : readThunk buf x64 off = .ok t := by simpa using ht
    have hrec : walkThunks buf secs x64 (off + thunkSize x64) n = .error .CorruptDirectory := by
      apply ih
      intro i hi
      obtain ⟨t', f', ht', htnz', hf'⟩ := hstep (i + 1) (Nat.succ_lt_succ hi)
      refine ⟨t', f', ?_, htnz', hf'⟩
      have harith : off + thunkSize x64 * (i + 1) = off + thunkSize x64 + thunkSize x64 * i := by
        ring
      rw [← harith]
      exact ht'
    unfold walkThunks
    simp only [ht0, if_neg htnz, hf, hrec]

theorem stepDescriptor_thunks_corrupt {buf : List Nat} {secs : List Section}
    {x64 : Bool} {cap off : Nat} {oft ts fc nameRVA ft nOff tOff : Nat} {dll : List Nat}
    (hd : readDescriptor buf off = .ok (oft, ts, fc, nameRVA, ft))
    (hdnz : ¬(oft = 0 ∧ ts = 0 ∧ fc = 0 ∧ nameRVA = 0 ∧ ft = 0))
    (hn : translateDir secs nameRVA = .ok nOff)
    (hs : readCString buf nOff = .ok dll)
    (htt : translateDir secs (if oft = 0 then ft else oft) = .ok tOff)
    (hw : walkThunks buf secs x64 tOff cap = .error .CorruptDirectory) :
    stepDescriptor buf secs x64 cap off = .error .CorruptDirectory := by
  unfold stepDescriptor
  simp only [hd, if_neg hdnz, hn, hs, htt, hw]

theorem walkDescriptors_error_at {buf : List Nat} {secs : List Section} {x64 : Bool}
    {cap : Nat} :
    ∀ {j fuel off : Nat}, j < fuel →
      (∀ i, i < j → ∃ lib, stepDescriptor buf secs x64 cap (off + 20 * i) = .ok (some lib)) →
      stepDescriptor buf secs x64 cap (off + 20 * j) = .error .CorruptDirectory →
      walkDescriptors buf secs x64 cap off fuel = .error .CorruptDirectory := by
  intro j
  induction j with
  | zero =>
    intro fuel off hlt _ herr
    cases fuel with
    | zero => exact absurd hlt (Nat.lt_irrefl 0)
    | succ n =>
      have herr0 : stepDescriptor buf secs x64 cap off = .error .CorruptDirectory := by
        simpa using herr
      unfold walkDescriptors
      simp only [herr0]
  | succ j ih =>
    intro fuel off hlt hpre herr
    cases fuel with
    | zero => exact absurd hlt (Nat.not_lt_zero _)
    | succ n =>
      obtain ⟨lib, hlib⟩ := hpre 0 j.succ_pos
      have hlib0 : stepDescriptor buf secs x64 cap off = .ok (some lib) := by
        simpa using hlib
      have hrec : walkDescriptors buf secs x64 cap (off + 20) n = .error .CorruptDirectory := by
        apply ih (Nat.lt_of_succ_lt_succ hlt)
        · intro i hi
          obtain ⟨l, hl⟩ := hpre (i + 1) (Nat.succ_lt_succ hi)
          refine ⟨l, ?_⟩
          have harith : off + 20 * (i + 1) = off + 20 + 20 * i := by ring
          rw [← harith]
          exact hl
        · have harith : off + 20 * (j + 1) = off + 20 + 20 * j := by ring
          rw [← harith]
          exact herr
      unfold walkDescriptors
      simp only [hlib0, hrec]

/-- C7: both import walks are bounded by the defensive cap, so `analyze`
(total by construction) never loops: whether the descriptor array keeps
yielding live descriptors with no all-zero terminator within the cap (left
disjunct), or some descriptor — reached after live predecessors — decodes to
a thunk table that keeps yielding readable nonzero thunks with no zero
terminator within the cap (right disjunct), `analyze` fails with
`CorruptDirectory`. -/
theorem unterminated_imports_corrupt (cap : Nat) (path : String) (buf : List Nat)
    (hdr : Header) (secs : List Section) (exps : List ExportEntry) (ioff : Nat)
    (hh : decodeHeaders buf = .ok hdr) (hsec : decodeSections buf hdr = .ok secs)
    (hexp : readExports buf secs hdr.exportRVA = .ok exps)
    (hnz : hdr.importRVA ≠ 0) (htr : translateDir secs hdr.importRVA = .ok ioff)
    (hrun :
      (∀ i, i < cap →
         ∃ lib, stepDescriptor buf secs hdr.is_x64 cap (ioff + 20 * i) = .ok (some lib)) ∨
      (∃ j, j < cap ∧
        (∀ i, i < j →
           ∃ lib, stepDescriptor buf secs hdr.is_x64 cap (ioff + 20 * i) = .ok (some lib)) ∧
        ∃ oft ts fc nameRVA ft nOff tOff dll,
          readDescriptor buf (ioff + 20 * j) = .ok (oft, ts, fc, nameRVA, ft) ∧
          ¬(oft = 0 ∧ ts = 0 ∧ fc = 0 ∧ nameRVA = 0 ∧ ft = 0) ∧
          translateDir secs nameRVA = .ok nOff ∧
          readCString buf nOff = .ok dll ∧
          translateDir secs (if oft = 0 then ft else oft) = .ok tOff ∧
          ∀ i, i < cap → ∃ t f,
            readThunk buf hdr.is_x64 (tOff + thunkSize hdr.is_x64 * i) = .ok t ∧
            t ≠ 0 ∧ decodeThunk buf secs hdr.is_x64 t = .ok f)) :
    analyze cap path buf = .error .CorruptDirectory := by
  have hwalk : walkDescriptors buf secs hdr.is_x64 cap ioff cap = .error .CorruptDirectory := by
    cases hrun with
    | inl hdesc => exact walkDescriptors_unterminated hdesc
    | inr hthunk =>
      obtain ⟨j, hj, hpre, oft, ts, fc, nameRVA, ft, nOff, tOff, dll,
        hd, hdnz, hn, hs, htt, hth⟩ := hthunk
      exact walkDescriptors_error_at hj hpre
        (stepDescriptor_thunks_corrupt hd hdnz hn hs htt (walkThunks_unbounded hth))
  have himp : readImports cap buf secs hdr.is_x64 hdr.importRVA = .error .CorruptDirectory := by
    unfold readImports
    rw [if_neg hnz]
    simp only [htr]
    exact hwalk
  exact analyze_imports_error cap path hh hsec hexp himp

/-- Witness for C7, one concrete fixture per disjunct, both analyzed with
cap 2: a descriptor array with no all-zero terminator in reach, and a
descriptor whose thunk table has no zero terminator in reach; both fail
with `CorruptDirectory`. -/
theorem unterminated_imports_corrupt_witness :
    analyze 2 "p" fixtureUnterminated = .error .CorruptDirectory ∧
    analyze 2 "p" fixtureUnterminatedThunks = .error .CorruptDirectory := by
  constructor
  · apply unterminated_imports_corrupt 2 "p" fixtureUnterminated
      ⟨false, 332, 1, 200, 0, 0, 4096, 0⟩ [⟨[46, 105, 100], 512, 4096, 4608⟩] [] 512
      (by decide) (by decide) (by decide) (by decide) (by decide)
    refine Or.inl ?_
    intro i hi
    match i with
    | 0 => exact ⟨⟨[65], []⟩, by decide⟩
    | 1 => exact ⟨⟨[65], []⟩, by decide⟩
    | n + 2 => exact absurd hi (by omega)
  · apply unterminated_imports_corrupt 2 "p" fixtureUnterminatedThunks
      ⟨false, 332, 1, 200, 0, 0, 4096, 0⟩ [⟨[46, 105, 100], 512, 4096, 4608⟩] [] 512
      (by decide) (by decide) (by decide) (by decide) (by decide)
    refine Or.inr ⟨0, by decide, fun i hi => absurd hi (Nat.not_lt_zero i),
      4224, 0, 0, 4240, 4224, 656, 640, [65],
      by decide, by decide, by decide, by decide, by decide, ?_⟩
    intro i hi
    match i with
    | 0 => exact ⟨0x80000001, ⟨true, 1, 0, []⟩, by decide, by decide, by decide⟩
    | 1 => exact ⟨0x80000002, ⟨true, 2, 0, []⟩, by decide, by decide, by decide⟩
    | n + 2 => exact absurd hi (by omega)

end PEInfo
